import Mathlib

/-!
Shallow embedding of the teleworker job-supervision engine
(kkloberdanz/teleport-challenge) and proofs about it.

The embedding follows the Go source:
* `output` package (`Buffer`, `inMemoryLogSubscriber`) — the fan-out output bus;
* `job` package (`localJob.Start/Stop/Wait`, `NewJob`) — the job state machine;
* `resources` package (`Manager.CreateCgroup`) — cgroup creation;
* `server` package (`Server.authorize`, `Server.GetJobStatus`, `Server.StopJob`,
  `Server.StreamOutput`) and `worker` package — the RPC adapter and registry.

Mutable state is passed explicitly; outcomes of OS calls (file writes, signals,
process wait) are injected as explicit parameters so that every control path of
the source is represented.
-/

namespace Teleworker

/-! ### Output bus (`output` package)

A `Buffer` is the append-only byte log `{buf []byte; closed bool}`; the mutex
and condition variable serialize operations, so each operation is modelled as
one atomic state transition. Bytes are modelled as `Nat`. -/

structure Buffer where
  buf : List Nat
  closed : Bool
  deriving DecidableEq, Repr

/-- Corresponds to `NewBuffer`: empty buffer, not closed. -/
def Buffer.new : Buffer := ⟨[], false⟩

/-- Corresponds to `ErrClosed` ("write to closed buffer"). -/
inductive WriteErr
  | closedErr
  deriving DecidableEq, Repr

/-- Embeds `Buffer.Write`: if closed, return `(0, ErrClosed)` and leave the
buffer unchanged; otherwise append `p` and return `(len p, nil)`. -/
def Buffer.write (b : Buffer) (p : List Nat) : (Nat × Option WriteErr) × Buffer :=
  if b.closed then ((0, some .closedErr), b)
  else ((p.length, none), { b with buf := b.buf ++ p })

/-- Embeds `Buffer.Close`: set `closed` (broadcast has no meaning on explicit
state). -/
def Buffer.closeBuf (b : Buffer) : Buffer := { b with closed := true }

/-- Embeds `inMemoryLogSubscriber`: a per-reader offset into the shared buffer
plus the one-shot `done` channel (`done = true` once the channel is closed). -/
structure inMemoryLogSubscriber where
  offset : Nat
  done : Bool
  deriving DecidableEq, Repr

/-- Embeds `Buffer.Subscribe`: a fresh subscriber starts at offset 0 with an
open `done` channel, regardless of the buffer's current contents. -/
def Buffer.subscribe (_b : Buffer) : inMemoryLogSubscriber := ⟨0, false⟩

/-- Embeds `inMemoryLogSubscriber.Close`: closing the `done` channel
(idempotent via `closeOnce`). -/
def inMemoryLogSubscriber.closeSub (s : inMemoryLogSubscriber) : inMemoryLogSubscriber :=
  { s with done := true }

/-- Result of one `Read` call: data copied into the destination, `io.EOF`,
`io.ErrClosedPipe`, or a suspension on `cond.Wait` (the Go loop re-checks the
same conditions on wake, so a woken read is a fresh `read` on the new state). -/
inductive ReadResult
  | bytes (data : List Nat)
  | eofRes
  | cancelled
  | blocked
  deriving DecidableEq, Repr

/-- Embeds `inMemoryLogSubscriber.Read` with a destination of capacity `cap`:
while `offset == len(buf)`, check `closed` (→ EOF) then `done` (→ Cancelled),
else wait; otherwise copy `min cap (len(buf) - offset)` bytes and advance. -/
def inMemoryLogSubscriber.read (s : inMemoryLogSubscriber) (b : Buffer) (cap : Nat) :
    ReadResult × inMemoryLogSubscriber :=
  if s.offset = b.buf.length then
    if b.closed then (.eofRes, s)
    else if s.done then (.cancelled, s)
    else (.blocked, s)
  else
    let data := (b.buf.drop s.offset).take cap
    (.bytes data, { s with offset := s.offset + data.length })

/-! Trace model for the bus: an interleaving of writer operations and one
subscriber's reads. The subscriber starts at offset 0 whenever it is created,
so a subscriber that subscribes mid-trace behaves exactly like one that existed
from the start but had not yet read; the trace therefore quantifies over all
subscription moments. -/

inductive BusOp
  | writeOp (p : List Nat)
  | closeOp
  | readOp (cap : Nat)
  deriving DecidableEq, Repr

structure BusTraceState where
  bus : Buffer
  sub : inMemoryLogSubscriber
  received : List Nat
  deriving DecidableEq, Repr

/-- One step of the bus trace: a write appends (dropped if the bus is closed,
as `Write` then fails), close sets the flag, and a read appends whatever the
subscriber's `Read` returned to its received stream. -/
def busStep (st : BusTraceState) (op : BusOp) : BusTraceState :=
  match op with
  | .writeOp p => { st with bus := (st.bus.write p).2 }
  | .closeOp => { st with bus := st.bus.closeBuf }
  | .readOp cap =>
    match st.sub.read st.bus cap with
    | (.bytes data, s') => { st with sub := s', received := st.received ++ data }
    | (_, s') => { st with sub := s' }

def busInit : BusTraceState := ⟨Buffer.new, Buffer.new.subscribe, []⟩

def runBus (ops : List BusOp) : BusTraceState := ops.foldl busStep busInit

/-- All write operations in the trace succeed: no write occurs at a point where
the bus is already closed (first argument: is the bus closed at trace entry). -/
def writesOk : Bool → List BusOp → Bool
  | _, [] => true
  | c, .writeOp _ :: rest => !c && writesOk c rest
  | _, .closeOp :: rest => writesOk true rest
  | c, .readOp _ :: rest => writesOk c rest

/-- Concatenation of all bytes written in the trace, in write order. -/
def concatWrites : List BusOp → List Nat
  | [] => []
  | .writeOp p :: rest => p ++ concatWrites rest
  | _ :: rest => concatWrites rest

/-! Helper lemmas for the bus trace. -/

theorem busStep_fold_invariant (ops : List BusOp) :
    ∀ st : BusTraceState,
      st.received = st.bus.buf.take st.sub.offset →
      st.sub.offset ≤ st.bus.buf.length →
      writesOk st.bus.closed ops = true →
      (ops.foldl busStep st).received =
          (ops.foldl busStep st).bus.buf.take (ops.foldl busStep st).sub.offset ∧
        (ops.foldl busStep st).sub.offset ≤ (ops.foldl busStep st).bus.buf.length ∧
        (ops.foldl busStep st).bus.buf = st.bus.buf ++ concatWrites ops := by
  induction ops with
  | nil =>
    intro st h1 h2 _
    refine ⟨h1, h2, ?_⟩
    simp [concatWrites]
  | cons op rest ih =>
    intro st h1 h2 hok
    match op with
    | .writeOp p =>
      have hcl : st.bus.closed = false := by
        cases hc : st.bus.closed
        · rfl
        · rw [writesOk, hc] at hok
          simp at hok
      have hok' : writesOk st.bus.closed rest = true := by
        rw [writesOk, hcl] at hok
        simp at hok
        rw [hcl]
        exact hok
      have hstep : busStep st (.writeOp p) =
          { st with bus := { st.bus with buf := st.bus.buf ++ p } } := by
        simp [busStep, Buffer.write, hcl]
      rw [List.foldl_cons, hstep]
      have h1' : st.received = (st.bus.buf ++ p).take st.sub.offset := by
        rw [h1, List.take_append_of_le_length h2]
      have h2' : st.sub.offset ≤ (st.bus.buf ++ p).length := by
        simp
        omega
      have := ih { st with bus := { st.bus with buf := st.bus.buf ++ p } } h1' h2' hok'
      refine ⟨this.1, this.2.1, ?_⟩
      rw [this.2.2]
      simp [concatWrites]
    | .closeOp =>
      have hok' : writesOk true rest = true := by
        rw [writesOk] at hok
        exact hok
      have hstep : busStep st .closeOp = { st with bus := { st.bus with closed := true } } := by
        simp [busStep, Buffer.closeBuf]
      rw [List.foldl_cons, hstep]
      have := ih { st with bus := { st.bus with closed := true } } h1 h2 hok'
      refine ⟨this.1, this.2.1, ?_⟩
      rw [this.2.2]
      simp [concatWrites]
    | .readOp cap =>
      have hok' : writesOk st.bus.closed rest = true := by
        rw [writesOk] at hok
        exact hok
      rw [List.foldl_cons]
      by_cases hoff : st.sub.offset = st.bus.buf.length
      · have hstep : ∃ s', busStep st (.readOp cap) = { st with sub := s' } ∧
            s' = st.sub := by
          refine ⟨st.sub, ?_, rfl⟩
          simp only [busStep, inMemoryLogSubscriber.read, hoff, if_pos rfl]
          cases st.bus.closed <;> cases st.sub.done <;> simp
        obtain ⟨s', hst, hsub⟩ := hstep
        rw [hst, hsub]
        exact ih st h1 h2 hok
      · have hlt : st.sub.offset < st.bus.buf.length := lt_of_le_of_ne h2 hoff
        have hstep : busStep st (.readOp cap) =
            { st with
              sub := { st.sub with
                offset := st.sub.offset + ((st.bus.buf.drop st.sub.offset).take cap).length },
              received := st.received ++ (st.bus.buf.drop st.sub.offset).take cap } := by
          simp [busStep, inMemoryLogSubscriber.read, hoff]
        rw [hstep]
        have hdlen : ((st.bus.buf.drop st.sub.offset).take cap).length =
            min cap (st.bus.buf.length - st.sub.offset) := by
          simp
        have h1' : st.received ++ (st.bus.buf.drop st.sub.offset).take cap =
            st.bus.buf.take (st.sub.offset + ((st.bus.buf.drop st.sub.offset).take cap).length) := by
          rw [h1, List.take_add]
          congr 1
          rw [hdlen, List.take_eq_take]
          simp
        have h2' : st.sub.offset + ((st.bus.buf.drop st.sub.offset).take cap).length ≤
            st.bus.buf.length := by
          rw [hdlen]
          omega
        exact ih _ h1' h2' hok'

/-- C2: For every trace of successful writes followed by close, interleaved
with reads of one subscriber, if a read reports EOF then the subscriber has
received exactly the concatenation of all written byte slices, in order,
starting from offset 0. -/
theorem subscriber_reads_exactly_writes (ops : List BusOp) (cap : Nat)
    (hok : writesOk false ops = true)
    (heof : ((runBus ops).sub.read (runBus ops).bus cap).1 = .eofRes) :
    (runBus ops).received = concatWrites ops := by
  have hinv := busStep_fold_invariant ops busInit (by simp [busInit, Buffer.new, Buffer.subscribe])
    (by simp [busInit, Buffer.new, Buffer.subscribe]) (by simpa [busInit, Buffer.new] using hok)
  have hrb : runBus ops = ops.foldl busStep busInit := rfl
  have hbuf : (runBus ops).bus.buf = concatWrites ops := by
    rw [hrb]
    simpa [busInit, Buffer.new] using hinv.2.2
  unfold inMemoryLogSubscriber.read at heof
  by_cases hoff : (runBus ops).sub.offset = (runBus ops).bus.buf.length
  · rw [hrb] at hoff hbuf ⊢
    rw [hinv.1, hoff, List.take_length, hbuf]
  · exfalso
    rw [if_neg hoff] at heof
    simp at heof

/-- C2 witness: a concrete trace (subscribe at offset 0, write, read, write,
close, read) on which the final read reports EOF and the received bytes equal
the concatenation of the writes. -/
theorem subscriber_reads_exactly_writes_witness :
    writesOk false [BusOp.writeOp [1, 2], BusOp.readOp 5, BusOp.writeOp [3],
        BusOp.closeOp, BusOp.readOp 5] = true ∧
      ((runBus [BusOp.writeOp [1, 2], BusOp.readOp 5, BusOp.writeOp [3],
        BusOp.closeOp, BusOp.readOp 5]).sub.read
        (runBus [BusOp.writeOp [1, 2], BusOp.readOp 5, BusOp.writeOp [3],
          BusOp.closeOp, BusOp.readOp 5]).bus 4).1 = .eofRes ∧
      (runBus [BusOp.writeOp [1, 2], BusOp.readOp 5, BusOp.writeOp [3],
        BusOp.closeOp, BusOp.readOp 5]).received =
        concatWrites [BusOp.writeOp [1, 2], BusOp.readOp 5, BusOp.writeOp [3],
          BusOp.closeOp, BusOp.readOp 5] :=
  ⟨by decide, by decide,
    subscriber_reads_exactly_writes _ 4 (by decide) (by decide)⟩

/-- C9: `Write` on a non-closed bus appends the bytes and returns the input
length with no error; `Write` on a closed bus returns `(0, ErrClosed)` and
leaves the buffer unchanged. -/
theorem write_append_or_closed (b : Buffer) (p : List Nat) :
    (b.closed = false →
      b.write p = ((p.length, none), { b with buf := b.buf ++ p })) ∧
    (b.closed = true →
      b.write p = ((0, some .closedErr), b)) := by
  constructor
  · intro h
    simp [Buffer.write, h]
  · intro h
    simp [Buffer.write, h]

/-- C9 witness: both branches of `write_append_or_closed` evaluated at concrete
buffers. -/
theorem write_append_or_closed_witness :
    (⟨[7], false⟩ : Buffer).write [8] = ((1, none), ⟨[7, 8], false⟩) ∧
      (⟨[7], true⟩ : Buffer).write [8] = ((0, some .closedErr), ⟨[7], true⟩) :=
  ⟨(write_append_or_closed ⟨[7], false⟩ [8]).1 rfl,
    (write_append_or_closed ⟨[7], true⟩ [8]).2 rfl⟩

/-- C10: after `Subscriber.Close`, a `Read` at an offset with data available
still returns the available bytes; `Read` returns Cancelled only when the
offset equals the buffer length and the bus is not closed; and when the bus is
closed and everything is consumed, `Read` returns EOF even on a closed
subscriber (the `closed` check precedes the `done` check). -/
theorem read_close_semantics (b : Buffer) (s : inMemoryLogSubscriber) (cap : Nat) :
    (s.offset < b.buf.length →
      (s.closeSub.read b cap).1 = .bytes ((b.buf.drop s.offset).take cap)) ∧
    ((s.read b cap).1 = .cancelled →
      s.offset = b.buf.length ∧ b.closed = false ∧ s.done = true) ∧
    (b.closed = true → s.offset = b.buf.length →
      (s.closeSub.read b cap).1 = .eofRes) := by
  refine ⟨?_, ?_, ?_⟩
  · intro hlt
    have hne : ¬(s.offset = b.buf.length) := by omega
    simp only [inMemoryLogSubscriber.closeSub, inMemoryLogSubscriber.read]
    rw [if_neg hne]
  · intro hc
    unfold inMemoryLogSubscriber.read at hc
    by_cases hoff : s.offset = b.buf.length
    · rw [if_pos hoff] at hc
      cases hcl : b.closed with
      | true => rw [hcl] at hc; simp at hc
      | false =>
        rw [hcl] at hc
        simp only [if_neg Bool.false_ne_true] at hc
        cases hd : s.done with
        | true => exact ⟨hoff, rfl, rfl⟩
        | false => rw [hd] at hc; simp at hc
    · rw [if_neg hoff] at hc
      simp at hc
  · intro hcl hoff
    have hoff' : s.closeSub.offset = b.buf.length := hoff
    simp [inMemoryLogSubscriber.read, hoff', hcl]

/-- C10 witness: concrete evaluations of each branch of
`read_close_semantics`. -/
theorem read_close_semantics_witness :
    ((⟨0, true⟩ : inMemoryLogSubscriber).closeSub.read ⟨[5, 6], false⟩ 4).1 =
        ReadResult.bytes [5, 6] ∧
      ((⟨2, true⟩ : inMemoryLogSubscriber).read ⟨[5, 6], false⟩ 4).1 = .cancelled ∧
      (((2 : Nat) = 2 ∧ (false : Bool) = false ∧ (true : Bool) = true)) ∧
      ((⟨2, true⟩ : inMemoryLogSubscriber).closeSub.read ⟨[5, 6], true⟩ 4).1 = .eofRes :=
  ⟨by
    have := (read_close_semantics ⟨[5, 6], false⟩ ⟨0, true⟩ 4).1 (by decide)
    simpa using this,
   by decide,
   (read_close_semantics ⟨[5, 6], false⟩ ⟨2, true⟩ 4).2.1 (by decide),
   (read_close_semantics ⟨[5, 6], true⟩ ⟨2, true⟩ 4).2.2 rfl rfl⟩

/-! ### Job state machine (`job` package)

`localJob` holds `{status, exitCode *int, cmd, cgroup, noCleanup}` guarded by a
mutex; each method runs under the lock, so each is one atomic transition.
`started` models `cmd != nil` (set by a successful `Start`), `waited` models
the documented contract that `Wait` invokes `Cmd.Wait` and "therefore it can
only be called once"; `hasCgroup` models `cgroup != nil`. -/

inductive JobStatus
  | unspecified
  | submitted
  | running
  | success
  | failed
  | killed
  deriving DecidableEq, Repr

/-- Corresponds to `StatusResult{Status, ExitCode *int}`. -/
structure StatusResult where
  status : JobStatus
  exitCode : Option Int
  deriving DecidableEq, Repr

structure JobState where
  status : JobStatus
  exitCode : Option Int
  started : Bool
  waited : Bool
  hasCgroup : Bool
  deriving DecidableEq, Repr

/-- Embeds `NewJob(JobTypeLocal, ...)`: status `Submitted`, no exit code, no
process yet. -/
def newJob (hasCgroup : Bool) : JobState :=
  ⟨.submitted, none, false, false, hasCgroup⟩

/-- Embeds `localJob.Status()`. -/
def JobState.statusResult (j : JobState) : StatusResult := ⟨j.status, j.exitCode⟩

/-- Corresponds to `syscall.SIGKILL` (signal number 9). -/
def sigkill : Int := 9

/-- Outcome of `Cmd.Wait()` as observed by `localJob.Wait`:
* `ok` — `err == nil` (child exited normally with code 0);
* `exitSignaled sig` — an `exec.ExitError` whose `WaitStatus` is `Signaled()`;
* `exitCodeErr code` — an `exec.ExitError` that is not signaled
  (normal exit with code `ExitCode()`, non-zero for a real child);
* `otherErr` — an error that is not an `exec.ExitError` (e.g. an I/O copy
  error), in which case the source leaves `exitCode` untouched. -/
inductive CmdWaitResult
  | ok
  | exitSignaled (sig : Nat)
  | exitCodeErr (code : Int)
  | otherErr
  deriving DecidableEq, Repr

/-- Embeds the status/exit-code update of `localJob.Wait` (the part under the
mutex, after `Cmd.Wait` returned `r`): if `err != nil` set `Failed` unless the
status is already `Killed`, then set the exit code from the `ExitError` (128 +
signal when signaled, `ExitCode()` otherwise, untouched when not an
`ExitError`); if `err == nil` set `Success` unless already `Killed` and set
exit code 0. The cgroup cleanup performed in the deferred function does not
touch status or exit code. -/
def waitReap (j : JobState) (r : CmdWaitResult) : JobState :=
  match r with
  | .ok =>
    { j with
      status := if j.status ≠ .killed then .success else j.status
      exitCode := some 0
      waited := true }
  | .exitSignaled sig =>
    { j with
      status := if j.status ≠ .killed then .failed else j.status
      exitCode := some (128 + (sig : Int))
      waited := true }
  | .exitCodeErr code =>
    { j with
      status := if j.status ≠ .killed then .failed else j.status
      exitCode := some code
      waited := true }
  | .otherErr =>
    { j with
      status := if j.status ≠ .killed then .failed else j.status
      waited := true }

/-- Error returned by `localJob.Start`: "job already started", or the spawn
error after the retry without PID-namespace flags also failed. -/
inductive StartError
  | alreadyStarted
  | spawnFailed
  deriving DecidableEq, Repr

/-- Embeds `localJob.Start`: fail unless `Submitted`; spawn the child (first
with PID-namespace flags, retrying without them — `spawnOk` is whether either
attempt succeeded, the retry being invisible to the job state); on success set
`cmd` and transition to `Running`, on failure clean up the owned cgroup and
stay `Submitted`. -/
def startLocal (j : JobState) (spawnOk : Bool) : Option StartError × JobState :=
  if j.status ≠ .submitted then (some .alreadyStarted, j)
  else if spawnOk then (none, { j with status := .running, started := true })
  else (some .spawnFailed, j)

/-- A job right after a successful `Start`: the state used by witnesses. -/
def runningJob (hasCgroup : Bool) : JobState := (startLocal (newJob hasCgroup) true).2

/-- Error returned by `localJob.Stop`: `ErrJobNotRunning`, or the wrapped
"failed to kill process group" error. -/
inductive StopError
  | notRunning
  | killFailed
  deriving DecidableEq, Repr

/-- Outcome of `syscall.Kill(-pid, SIGKILL)` on the process group. -/
inductive SignalResult
  | ok
  | esrch
  | otherErrno
  deriving DecidableEq, Repr

/-- Outcome of writing `1` into the job cgroup's `cgroup.kill` file. -/
inductive CgKillResult
  | ok
  | writeFailed
  deriving DecidableEq, Repr

/-- Injected outcomes of the OS calls `Stop` may perform. -/
structure StopEnv where
  cgKill : CgKillResult
  pgKill : SignalResult
  deriving DecidableEq, Repr

/-- Result of `localJob.Stop`: the returned error (or `none` on success), the
job state after the call, and which kill primitives were actually invoked. -/
structure StopOutcome where
  result : Option StopError
  state : JobState
  cgKillAttempted : Bool
  pgKillAttempted : Bool
  deriving DecidableEq, Repr

/-- Embeds `localJob.Stop`: return `ErrJobNotRunning` unless `Running`; write
`cgroup.kill` when a cgroup is attached, recording `cgroupErr` on failure;
if there is no cgroup or the cgroup kill failed, SIGKILL the negated pid
(ESRCH ignored as a race with natural exit, any other errno returned as an
error with the state unchanged); finally commit status `Killed` and exit code
`128 + SIGKILL`. The bus is not closed here. -/
def stop (j : JobState) (env : StopEnv) : StopOutcome :=
  if j.status ≠ .running then ⟨some .notRunning, j, false, false⟩
  else
    let cgroupErr : Bool := j.hasCgroup && decide (env.cgKill = .writeFailed)
    if !j.hasCgroup || cgroupErr then
      if env.pgKill = .otherErrno then
        ⟨some .killFailed, j, j.hasCgroup, true⟩
      else
        ⟨none, { j with status := .killed, exitCode := some (128 + sigkill) },
          j.hasCgroup, true⟩
    else
      ⟨none, { j with status := .killed, exitCode := some (128 + sigkill) },
        j.hasCgroup, false⟩

/-- C1 counterexample: on a running job, `Stop` succeeds and commits status
`Killed` with exit code 137, but when the child is then observed to have
exited normally with code 0 (`Cmd.Wait` returns nil — exactly the race the
claim covers), `Wait` leaves the status `Killed` yet overwrites the exit code
with 0, so the exit code is not 137 after `Wait`. -/
theorem stop_then_wait_race_counterexample :
    (stop (runningJob false) ⟨.ok, .ok⟩).result = none ∧
      (stop (runningJob false) ⟨.ok, .ok⟩).state.status = .killed ∧
      (stop (runningJob false) ⟨.ok, .ok⟩).state.exitCode = some 137 ∧
      (waitReap (stop (runningJob false) ⟨.ok, .ok⟩).state .ok).status = .killed ∧
      (waitReap (stop (runningJob false) ⟨.ok, .ok⟩).state .ok).exitCode = some 0 ∧
      (waitReap (stop (runningJob false) ⟨.ok, .ok⟩).state .ok).exitCode ≠ some 137 := by
  decide

/-- C1 amended: after a successful `Stop` (status `Killed`, exit code 137),
the subsequent `Wait` always leaves the status `Killed`, but the exit code is
recomputed from the observed termination: it stays 137 only when the child is
observed signal-killed with signal 9 or when `Cmd.Wait` returns a
non-`ExitError` error; if the child exited normally with code N just before
the signal landed (N = 0 included), the exit code is overwritten with N. -/
theorem stop_then_wait_amended (j : JobState) (env : StopEnv) (r : CmdWaitResult)
    (hrun : j.status = .running) (hok : (stop j env).result = none) :
    (waitReap (stop j env).state r).status = .killed ∧
      (waitReap (stop j env).state r).exitCode =
        (match r with
          | .ok => some 0
          | .exitSignaled sig => some (128 + (sig : Int))
          | .exitCodeErr code => some code
          | .otherErr => some 137) := by
  obtain ⟨st, ec, sd, wd, cg⟩ := j
  obtain ⟨ck, pk⟩ := env
  cases st <;> cases cg <;> cases ck <;> cases pk <;> cases r <;>
    simp_all [stop, waitReap, sigkill]

/-- C1 amended witness: the amended theorem applied to a concrete running job,
successful stop, and the exited-normally-with-0 observation. -/
theorem stop_then_wait_amended_witness :
    ((runningJob true).status = .running ∧
        (stop (runningJob true) ⟨.ok, .esrch⟩).result = none) ∧
      (waitReap (stop (runningJob true) ⟨.ok, .esrch⟩).state .ok).status = .killed ∧
      (waitReap (stop (runningJob true) ⟨.ok, .esrch⟩).state .ok).exitCode = some 0 :=
  ⟨⟨by decide, by decide⟩,
    stop_then_wait_amended (runningJob true) ⟨.ok, .esrch⟩ .ok (by decide) (by decide)⟩

/-- C3: reaping a job that was not previously stopped (status not `Killed`):
a normal exit with code 0 gives `Success` with exit code 0; a normal exit with
non-zero code N gives `Failed` with exit code N; death by signal S gives
`Failed` with exit code 128 + S; and in each of these cases the exit code is
present. -/
theorem wait_reap_terminal_codes (j : JobState) (n : Int) (s : Nat)
    (hnk : j.status ≠ .killed) (hn : n ≠ 0) :
    ((waitReap j .ok).status = .success ∧ (waitReap j .ok).exitCode = some 0) ∧
      ((waitReap j (.exitCodeErr n)).status = .failed ∧
        (waitReap j (.exitCodeErr n)).exitCode = some n) ∧
      ((waitReap j (.exitSignaled s)).status = .failed ∧
        (waitReap j (.exitSignaled s)).exitCode = some (128 + (s : Int))) ∧
      ((waitReap j .ok).exitCode.isSome = true ∧
        (waitReap j (.exitCodeErr n)).exitCode.isSome = true ∧
        (waitReap j (.exitSignaled s)).exitCode.isSome = true) := by
  refine ⟨⟨?_, ?_⟩, ⟨?_, ?_⟩, ⟨?_, ?_⟩, ?_, ?_, ?_⟩ <;>
    simp [waitReap, hnk]

/-- C3 witness: the reap cases evaluated on a concrete running job with
N = 2 and S = 15 (SIGTERM → 143). -/
theorem wait_reap_terminal_codes_witness :
    ((runningJob false).status ≠ JobStatus.killed ∧ (2 : Int) ≠ 0) ∧
      (waitReap (runningJob false) .ok).status = .success ∧
      (waitReap (runningJob false) (.exitCodeErr 2)).exitCode = some 2 ∧
      (waitReap (runningJob false) (.exitSignaled 15)).exitCode = some 143 :=
  ⟨⟨by decide, by decide⟩,
    ((wait_reap_terminal_codes (runningJob false) 2 15 (by decide) (by decide)).1).1,
    ((wait_reap_terminal_codes (runningJob false) 2 15 (by decide) (by decide)).2.1).2,
    by
      have := ((wait_reap_terminal_codes (runningJob false) 2 15 (by decide)
        (by decide)).2.2.1).2
      norm_num at this ⊢
      exact this⟩

/-- C4: `Stop` returns `ErrJobNotRunning` exactly when the status is not
`Running`, and then leaves the state unchanged; a successful `Stop` on a
running job commits status `Killed` and exit code 137 (the waiter is not
involved: `stop` consumes no wait observation). -/
theorem stop_not_running_iff (j : JobState) (env : StopEnv) :
    ((stop j env).result = some .notRunning ↔ j.status ≠ .running) ∧
      (j.status ≠ .running → (stop j env).state = j) ∧
      (j.status = .running → (stop j env).result = none →
        (stop j env).state.status = .killed ∧
          (stop j env).state.exitCode = some 137) := by
  obtain ⟨st, ec, sd, wd, cg⟩ := j
  obtain ⟨ck, pk⟩ := env
  cases st <;> cases cg <;> cases ck <;> cases pk <;>
    simp_all [stop, sigkill]

/-- C4 witness: the not-running branch on a fresh job and the success branch
on a running job, at concrete inputs. -/
theorem stop_not_running_iff_witness :
    (stop (newJob false) ⟨.ok, .ok⟩).result = some .notRunning ∧
      (stop (newJob false) ⟨.ok, .ok⟩).state = newJob false ∧
      (stop (runningJob false) ⟨.ok, .ok⟩).state.status = .killed ∧
      (stop (runningJob false) ⟨.ok, .ok⟩).state.exitCode = some 137 :=
  ⟨(stop_not_running_iff (newJob false) ⟨.ok, .ok⟩).1.mpr (by decide),
    (stop_not_running_iff (newJob false) ⟨.ok, .ok⟩).2.1 (by decide),
    ((stop_not_running_iff (runningJob false) ⟨.ok, .ok⟩).2.2 (by decide) (by decide)).1,
    ((stop_not_running_iff (runningJob false) ⟨.ok, .ok⟩).2.2 (by decide) (by decide)).2⟩

/-- C6: during a successful or failed `Stop` of a running job, the
process-group SIGKILL is attempted exactly when there is no cgroup or the
`cgroup.kill` write failed; an ESRCH outcome of that signal still yields
success; and when the cgroup kill succeeds no process-group signal is sent. -/
theorem stop_dual_kill_path (j : JobState) (env : StopEnv)
    (hrun : j.status = .running) :
    ((stop j env).pgKillAttempted = true ↔
        (j.hasCgroup = false ∨ (j.hasCgroup = true ∧ env.cgKill = .writeFailed))) ∧
      ((stop j env).pgKillAttempted = true → env.pgKill = .esrch →
        (stop j env).result = none) ∧
      (j.hasCgroup = true → env.cgKill = .ok →
        (stop j env).pgKillAttempted = false) := by
  obtain ⟨st, ec, sd, wd, cg⟩ := j
  obtain ⟨ck, pk⟩ := env
  cases st <;> cases cg <;> cases ck <;> cases pk <;>
    simp_all [stop, sigkill]

/-- C6 witness: concrete running jobs exercising all three conjuncts — no
cgroup (signal sent, ESRCH treated as success) and cgroup kill succeeding
(no signal sent). -/
theorem stop_dual_kill_path_witness :
    (stop (runningJob false) ⟨.ok, .esrch⟩).pgKillAttempted = true ∧
      (stop (runningJob false) ⟨.ok, .esrch⟩).result = none ∧
      (stop (runningJob true) ⟨.ok, .ok⟩).pgKillAttempted = false :=
  ⟨(stop_dual_kill_path (runningJob false) ⟨.ok, .esrch⟩ (by decide)).1.mpr
      (Or.inl (by decide)),
    (stop_dual_kill_path (runningJob false) ⟨.ok, .esrch⟩ (by decide)).2.1
      ((stop_dual_kill_path (runningJob false) ⟨.ok, .esrch⟩ (by decide)).1.mpr
        (Or.inl (by decide))) (by decide),
    (stop_dual_kill_path (runningJob true) ⟨.ok, .ok⟩ (by decide)).2.2 (by decide)
      (by decide)⟩

/-! ### Interleavings of the job operations (for the lifecycle invariant)

An operation on the job is one of the four public methods, each atomic under
the per-job mutex. `Wait` is modelled with its documented preconditions: it is
invoked only on a started job (`l.cmd` would be nil otherwise) and, because it
calls `Cmd.Wait`, "it can only be called once" (the worker spawns exactly one
waiter per started job); an op violating the precondition is a no-op in the
trace rather than a crash. -/

inductive JobOp
  | startOp (spawnOk : Bool)
  | stopOp (env : StopEnv)
  | statusOp
  | waitOp (r : CmdWaitResult)
  deriving DecidableEq, Repr

/-- One operation applied to the job state: `Start` (via `startLocal`),
`Stop` (via `stop`), `Status` (read-only), `Wait` (via `waitReap`, guarded by
its documented precondition). -/
def jobStep (j : JobState) (op : JobOp) : JobState :=
  match op with
  | .startOp spawnOk => (startLocal j spawnOk).2
  | .stopOp env => (stop j env).state
  | .statusOp => j
  | .waitOp r => if j.started && !j.waited then waitReap j r else j

/-- Any of the terminal statuses `Success`, `Failed`, `Killed`. -/
def isTerminal : JobStatus → Bool
  | .success => true
  | .failed => true
  | .killed => true
  | _ => false

/-- The reachability order of the state machine
`Submitted → Running → {Success, Failed, Killed}`: a status may stay put,
`Submitted` may advance to any initialized status, `Running` only to a
terminal one. -/
def statusLE (a b : JobStatus) : Bool :=
  a == b || (a == .submitted && !(b == .unspecified)) || (a == .running && isTerminal b)

theorem statusLE_refl (a : JobStatus) : statusLE a a = true := by
  cases a <;> decide

theorem statusLE_trans (a b c : JobStatus) :
    statusLE a b = true → statusLE b c = true → statusLE a c = true := by
  cases a <;> cases b <;> cases c <;> decide

/-- Invariant tying the bookkeeping fields to the status: the status is
initialized, an unstarted job is still `Submitted`, and `Success`/`Failed`
exist only after the (unique) `Wait` ran. -/
def JobInv (j : JobState) : Prop :=
  j.status ≠ .unspecified ∧
    (j.started = false → j.status = .submitted) ∧
    ((j.status = .success ∨ j.status = .failed) → j.waited = true)

theorem jobInv_newJob (hasCgroup : Bool) : JobInv (newJob hasCgroup) := by
  cases hasCgroup <;> exact ⟨by decide, fun _ => rfl, by decide⟩

theorem jobInv_step (j : JobState) (op : JobOp) (h : JobInv j) : JobInv (jobStep j op) := by
  obtain ⟨h1, h2, h3⟩ := h
  obtain ⟨st, ec, sd, wd, cg⟩ := j
  obtain _ | _ | _ | _ := op <;>
    cases st <;> cases sd <;> cases wd <;> cases cg <;>
    first
      | (rename_i e; obtain ⟨ck, pk⟩ := e; cases ck <;> cases pk <;>
          simp_all [jobStep, startLocal, stop, waitReap, JobInv, sigkill])
      | (rename_i r; cases r <;>
          simp_all [jobStep, startLocal, stop, waitReap, JobInv, sigkill])
      | simp_all [jobStep, startLocal, stop, waitReap, JobInv, sigkill]

theorem jobStep_monotone (j : JobState) (op : JobOp) (h : JobInv j) :
    statusLE j.status (jobStep j op).status = true ∧
      (isTerminal j.status = true → (jobStep j op).status = j.status) := by
  obtain ⟨h1, h2, h3⟩ := h
  obtain ⟨st, ec, sd, wd, cg⟩ := j
  obtain _ | _ | _ | _ := op <;>
    cases st <;> cases sd <;> cases wd <;> cases cg <;>
    first
      | (rename_i e; obtain ⟨ck, pk⟩ := e; cases ck <;> cases pk <;>
          simp_all [jobStep, startLocal, stop, waitReap, statusLE, isTerminal, sigkill])
      | (rename_i r; cases r <;>
          simp_all [jobStep, startLocal, stop, waitReap, statusLE, isTerminal, sigkill])
      | simp_all [jobStep, startLocal, stop, waitReap, statusLE, isTerminal, sigkill]

theorem jobInv_fold (ops : List JobOp) :
    ∀ j : JobState, JobInv j → JobInv (ops.foldl jobStep j) := by
  induction ops with
  | nil => intro j h; exact h
  | cons op rest ih =>
    intro j h
    exact ih (jobStep j op) (jobInv_step j op h)

theorem jobFold_monotone (ops : List JobOp) :
    ∀ j : JobState, JobInv j →
      statusLE j.status (ops.foldl jobStep j).status = true ∧
        (isTerminal j.status = true → (ops.foldl jobStep j).status = j.status) := by
  induction ops with
  | nil =>
    intro j _
    refine ⟨?_, fun _ => rfl⟩
    simp only [List.foldl_nil]
    exact statusLE_refl j.status
  | cons op rest ih =>
    intro j h
    have hstep := jobStep_monotone j op h
    have hrest := ih (jobStep j op) (jobInv_step j op h)
    simp only [List.foldl_cons]
    constructor
    · exact statusLE_trans _ _ _ hstep.1 hrest.1
    · intro hterm
      have h1 : (jobStep j op).status = j.status := hstep.2 hterm
      have h2 : isTerminal (jobStep j op).status = true := by rw [h1]; exact hterm
      rw [hrest.2 h2, h1]

/-- C8: from `NewJob` onward, under every interleaving of `Start`, `Stop`,
`Status` and `Wait`, the status only advances along
`Submitted → Running → {Success, Failed, Killed}` (every further suffix of
operations keeps it `statusLE`-above the current one), a terminal status is
never changed by any later operations, and `StatusUnspecified` never appears. -/
theorem job_status_monotone (hasCgroup : Bool) (ops more : List JobOp) :
    statusLE ((ops.foldl jobStep (newJob hasCgroup)).status)
        ((more.foldl jobStep (ops.foldl jobStep (newJob hasCgroup))).status) = true ∧
      (isTerminal (ops.foldl jobStep (newJob hasCgroup)).status = true →
        (more.foldl jobStep (ops.foldl jobStep (newJob hasCgroup))).status =
          (ops.foldl jobStep (newJob hasCgroup)).status) ∧
      (ops.foldl jobStep (newJob hasCgroup)).status ≠ .unspecified := by
  have hinv := jobInv_fold ops (newJob hasCgroup) (jobInv_newJob hasCgroup)
  have hmono := jobFold_monotone more (ops.foldl jobStep (newJob hasCgroup)) hinv
  exact ⟨hmono.1, hmono.2, hinv.1⟩

/-- C8 witness: a concrete interleaving — start, stop (→ `Killed`), then a
wait observing a SIGKILLed child and another stop attempt leave the terminal
status untouched. -/
theorem job_status_monotone_witness :
    statusLE (([JobOp.startOp true, JobOp.stopOp ⟨.ok, .ok⟩].foldl jobStep
          (newJob false)).status)
        (([JobOp.waitOp (.exitSignaled 9), JobOp.stopOp ⟨.ok, .ok⟩].foldl jobStep
          ([JobOp.startOp true, JobOp.stopOp ⟨.ok, .ok⟩].foldl jobStep
            (newJob false))).status) = true ∧
      ([JobOp.waitOp (.exitSignaled 9), JobOp.stopOp ⟨.ok, .ok⟩].foldl jobStep
          ([JobOp.startOp true, JobOp.stopOp ⟨.ok, .ok⟩].foldl jobStep
            (newJob false))).status =
        ([JobOp.startOp true, JobOp.stopOp ⟨.ok, .ok⟩].foldl jobStep
          (newJob false)).status ∧
      ([JobOp.startOp true, JobOp.stopOp ⟨.ok, .ok⟩].foldl jobStep
          (newJob false)).status ≠ .unspecified :=
  ⟨(job_status_monotone false [JobOp.startOp true, JobOp.stopOp ⟨.ok, .ok⟩]
      [JobOp.waitOp (.exitSignaled 9), JobOp.stopOp ⟨.ok, .ok⟩]).1,
    (job_status_monotone false [JobOp.startOp true, JobOp.stopOp ⟨.ok, .ok⟩]
      [JobOp.waitOp (.exitSignaled 9), JobOp.stopOp ⟨.ok, .ok⟩]).2.1 (by decide),
    (job_status_monotone false [JobOp.startOp true, JobOp.stopOp ⟨.ok, .ok⟩]
      [JobOp.waitOp (.exitSignaled 9), JobOp.stopOp ⟨.ok, .ok⟩]).2.2⟩

/-! ### Resource controller (`resources` package, `Manager.CreateCgroup`)

Outcomes of the filesystem operations `CreateCgroup` performs are injected;
the effects on the per-job directory are tracked explicitly. -/

inductive FsResult
  | ok
  | err
  deriving DecidableEq, Repr

/-- Injected outcomes of the filesystem calls in `CreateCgroup`, in source
order: `os.Mkdir(path)`, the `cpu.max` write, the `memory.max` write,
`rootIOMax()` (stat of `/`), the `io.max` write, `unix.Open` of the directory
fd, and the `os.Remove(path)` issued on the error paths. -/
structure CgEnv where
  mkdirRes : FsResult
  cpuMaxWrite : FsResult
  memMaxWrite : FsResult
  rootIOMaxRes : FsResult
  ioMaxWrite : FsResult
  openDirFd : FsResult
  removeDir : FsResult
  deriving DecidableEq, Repr

/-- Return value of `CreateCgroup`: the cgroup, or which mandatory step
failed. -/
inductive CreateResult
  | createdCg
  | errMkdir
  | errCpuMax
  | errMemMax
  | errOpenFd
  deriving DecidableEq, Repr

/-- Observable filesystem effects of one `CreateCgroup` call. -/
structure CgEffects where
  dirCreated : Bool
  removeAttempted : Bool
  dirRemains : Bool
  ioMaxAttempted : Bool
  deriving DecidableEq, Repr

/-- Embeds `Manager.CreateCgroup`: create the directory; write `cpu.max` and
`memory.max`, on failure `os.Remove` the directory (a removal failure only
logs) and return the error; compute and write `io.max` best-effort (either
failure only logs); open the directory fd, with the same removal-and-error
path on failure. -/
def createCgroup (env : CgEnv) : CreateResult × CgEffects :=
  if env.mkdirRes = .err then (.errMkdir, ⟨false, false, false, false⟩)
  else if env.cpuMaxWrite = .err then
    (.errCpuMax, ⟨true, true, decide (env.removeDir = .err), false⟩)
  else if env.memMaxWrite = .err then
    (.errMemMax, ⟨true, true, decide (env.removeDir = .err), false⟩)
  else
    let ioAttempt := decide (env.rootIOMaxRes = .ok)
    if env.openDirFd = .err then
      (.errOpenFd, ⟨true, true, decide (env.removeDir = .err), ioAttempt⟩)
    else
      (.createdCg, ⟨true, false, true, ioAttempt⟩)

/-- C7 counterexample: when the `cpu.max` write fails and the `os.Remove` on
the error path itself fails (the source only logs that), `CreateCgroup`
returns an error yet the per-job directory it created is left behind. -/
theorem createCgroup_error_leaves_dir_counterexample :
    (createCgroup ⟨.ok, .err, .ok, .ok, .ok, .ok, .err⟩).1 = .errCpuMax ∧
      (createCgroup ⟨.ok, .err, .ok, .ok, .ok, .ok, .err⟩).2.dirCreated = true ∧
      (createCgroup ⟨.ok, .err, .ok, .ok, .ok, .ok, .err⟩).2.dirRemains = true := by
  decide

/-- C7 amended: on every error return after the directory was created
(`cpu.max` write, `memory.max` write, or opening the directory fd failed),
`CreateCgroup` attempts to remove the directory before returning, and the
directory is gone provided that removal succeeds; and the outcome of
computing or writing `io.max` never changes the result of `CreateCgroup`. -/
theorem createCgroup_cleanup_amended (env : CgEnv) (x y : FsResult) :
    ((createCgroup env).1 ≠ .createdCg → (createCgroup env).2.dirCreated = true →
      (createCgroup env).2.removeAttempted = true ∧
        (env.removeDir = .ok → (createCgroup env).2.dirRemains = false)) ∧
      (createCgroup { env with rootIOMaxRes := x, ioMaxWrite := y }).1 =
        (createCgroup env).1 := by
  obtain ⟨m, c, me, ri, io, od, rm⟩ := env
  cases m <;> cases c <;> cases me <;> cases ri <;> cases io <;> cases od <;> cases rm <;>
    cases x <;> cases y <;> simp_all [createCgroup]

/-- C7 amended witness: the amended theorem applied at a failing `memory.max`
write with a succeeding removal. -/
theorem createCgroup_cleanup_amended_witness :
    ((createCgroup ⟨.ok, .ok, .err, .ok, .ok, .ok, .ok⟩).2.removeAttempted = true ∧
        (createCgroup ⟨.ok, .ok, .err, .ok, .ok, .ok, .ok⟩).2.dirRemains = false) ∧
      (createCgroup ⟨.ok, .ok, .err, .err, .err, .ok, .ok⟩).1 =
        (createCgroup ⟨.ok, .ok, .err, .ok, .ok, .ok, .ok⟩).1 :=
  ⟨⟨((createCgroup_cleanup_amended ⟨.ok, .ok, .err, .ok, .ok, .ok, .ok⟩ .err .err).1
        (by decide) (by decide)).1,
      ((createCgroup_cleanup_amended ⟨.ok, .ok, .err, .ok, .ok, .ok, .ok⟩ .err .err).1
        (by decide) (by decide)).2 (by decide)⟩,
    (createCgroup_cleanup_amended ⟨.ok, .ok, .err, .ok, .ok, .ok, .ok⟩ .err .err).2⟩

/-! ### RPC adapter and registry (`server` and `worker` packages)

`Worker.trackJob` inserts into `jobs` and `owners` under one write lock, so
both maps always have the same domain; the registry is modelled as a single
association list from job id to `(job, owner)`, populated by a trace of
`StartJob` calls (an id is in the registry exactly when a `StartJob` call
returned it). The caller's identity is taken as given (the auth interceptor
already placed it in the context). -/

/-- Corresponds to `auth.Identity{Username, Role}`. -/
structure Identity where
  username : String
  role : String
  deriving DecidableEq, Repr

/-- Embeds `Identity.IsAdmin`. -/
def Identity.isAdmin (idt : Identity) : Bool := idt.role == "admin"

/-- One `Worker.StartJob` call: the id it allocated, the owner it recorded,
the job it constructed, and whether the call succeeded (only then does
`trackJob` insert the entry and does the caller receive the id). -/
structure StartEvent where
  jobId : String
  owner : Identity
  job : JobState
  succeeded : Bool
  deriving DecidableEq, Repr

def insertStart (w : List (String × JobState × Identity)) (e : StartEvent) :
    List (String × JobState × Identity) :=
  if e.succeeded then (e.jobId, e.job, e.owner) :: w else w

/-- The registry produced by a trace of `StartJob` calls. -/
def buildWorker (evs : List StartEvent) : List (String × JobState × Identity) :=
  evs.foldl insertStart []

/-- Go map lookup on the association list (later inserts shadow earlier
ones, matching map overwrite; uuids never collide in practice). -/
def lookupJob : List (String × JobState × Identity) → String → Option (JobState × Identity)
  | [], _ => none
  | (k, v) :: rest, jid => if k = jid then some v else lookupJob rest jid

/-- Embeds `Worker.GetJobOwner`. -/
def getJobOwner (w : List (String × JobState × Identity)) (jid : String) : Option Identity :=
  (lookupJob w jid).map (·.2)

/-- Embeds `Worker.getJob`. -/
def getJob (w : List (String × JobState × Identity)) (jid : String) : Option JobState :=
  (lookupJob w jid).map (·.1)

/-- Some `StartJob` call returned this id. -/
def jobStarted (evs : List StartEvent) (jid : String) : Prop :=
  ∃ e ∈ evs, e.succeeded = true ∧ e.jobId = jid

/-- Error statuses the adapter can return on these paths. -/
inductive RpcError
  | notFound
  | failedPrecondition
  | internalErr
  deriving DecidableEq, Repr

/-- Embeds `Server.authorize`: admins pass; otherwise look up the owner,
returning NotFound when the job is unknown, NotFound when the owner's
username differs from the caller's (deliberately not PermissionDenied), and
passing otherwise. -/
def authorize (w : List (String × JobState × Identity)) (idt : Identity) (jid : String) :
    Option RpcError :=
  if idt.isAdmin then none
  else
    match getJobOwner w jid with
    | none => some .notFound
    | some owner => if owner.username ≠ idt.username then some .notFound else none

/-- Embeds `Server.GetJobStatus`: authorize, then `Worker.GetJobStatus`
(NotFound when the id is not in the registry), then return the job's
status result. -/
def serverGetJobStatus (w : List (String × JobState × Identity)) (idt : Identity)
    (jid : String) : Except RpcError StatusResult :=
  match authorize w idt jid with
  | some e => .error e
  | none =>
    match getJob w jid with
    | none => .error .notFound
    | some j => .ok j.statusResult

/-- Embeds `Server.StopJob`: authorize, then `Worker.StopJob` (NotFound when
unknown, FailedPrecondition for `ErrJobNotRunning`, Internal for any other
stop error). -/
def serverStopJob (w : List (String × JobState × Identity)) (idt : Identity)
    (jid : String) (env : StopEnv) : Except RpcError Unit :=
  match authorize w idt jid with
  | some e => .error e
  | none =>
    match getJob w jid with
    | none => .error .notFound
    | some j =>
      match (stop j env).result with
      | some .notRunning => .error .failedPrecondition
      | some .killFailed => .error .internalErr
      | none => .ok ()

/-- Embeds the lookup part of `Server.StreamOutput`: authorize, then
`Worker.StreamOutput` (NotFound when unknown; otherwise a fresh subscriber on
the job's bus, which always starts at offset 0 with an open done channel). -/
def serverStreamOutput (w : List (String × JobState × Identity)) (idt : Identity)
    (jid : String) : Except RpcError inMemoryLogSubscriber :=
  match authorize w idt jid with
  | some e => .error e
  | none =>
    match getJob w jid with
    | none => .error .notFound
    | some _ => .ok ⟨0, false⟩

/-- The owner recorded for a job id. -/
def recordedOwner (evs : List StartEvent) (jid : String) : Option Identity :=
  getJobOwner (buildWorker evs) jid

/-- The id-or-ownership condition of C5: no `StartJob` call ever returned the
id, or the caller is not an admin and differs from the recorded owner. -/
def notFoundCond (evs : List StartEvent) (idt : Identity) (jid : String) : Prop :=
  ¬jobStarted evs jid ∨
    (idt.isAdmin = false ∧
      ∃ o, recordedOwner evs jid = some o ∧ o.username ≠ idt.username)

theorem lookupJob_foldl_none (evs : List StartEvent) :
    ∀ acc : List (String × JobState × Identity), ∀ jid : String,
      (lookupJob (evs.foldl insertStart acc) jid = none ↔
        (lookupJob acc jid = none ∧ ¬jobStarted evs jid)) := by
  induction evs with
  | nil =>
    intro acc jid
    simp [jobStarted]
  | cons e rest ih =>
    intro acc jid
    rw [List.foldl_cons]
    rw [ih (insertStart acc e) jid]
    unfold insertStart
    have hstarted : jobStarted (e :: rest) jid ↔
        ((e.succeeded = true ∧ e.jobId = jid) ∨ jobStarted rest jid) := by
      unfold jobStarted
      constructor
      · rintro ⟨f, hf, hs, hj⟩
        rcases List.mem_cons.mp hf with rfl | hmem
        · exact Or.inl ⟨hs, hj⟩
        · exact Or.inr ⟨f, hmem, hs, hj⟩
      · rintro (⟨hs, hj⟩ | ⟨f, hmem, hs, hj⟩)
        · exact ⟨e, List.mem_cons_self e rest, hs, hj⟩
        · exact ⟨f, List.mem_cons_of_mem e hmem, hs, hj⟩
    rw [hstarted]
    cases hs : e.succeeded with
    | false => simp [hs]
    | true =>
      simp only [if_pos rfl]
      by_cases hj : e.jobId = jid
      · simp [lookupJob, hj, hs]
      · simp [lookupJob, hj, hs]

theorem lookupJob_buildWorker_none (evs : List StartEvent) (jid : String) :
    lookupJob (buildWorker evs) jid = none ↔ ¬jobStarted evs jid := by
  unfold buildWorker
  rw [lookupJob_foldl_none evs [] jid]
  simp [lookupJob]

/-- C5: for every trace of `StartJob` calls, caller identity and job id, the
adapter's `GetJobStatus`, `StopJob` and `StreamOutput` return NotFound exactly
when no `StartJob` call ever returned that id or the caller is a non-admin
whose username differs from the recorded owner's; an admin is never rejected
on ownership grounds (for an admin, NotFound is equivalent to the id being
unknown). -/
theorem adapter_notfound_iff (evs : List StartEvent) (idt : Identity) (jid : String)
    (env : StopEnv) :
    (serverGetJobStatus (buildWorker evs) idt jid = .error .notFound ↔
        notFoundCond evs idt jid) ∧
      (serverStopJob (buildWorker evs) idt jid env = .error .notFound ↔
        notFoundCond evs idt jid) ∧
      (serverStreamOutput (buildWorker evs) idt jid = .error .notFound ↔
        notFoundCond evs idt jid) ∧
      (idt.isAdmin = true →
        (serverGetJobStatus (buildWorker evs) idt jid = .error .notFound ↔
          ¬jobStarted evs jid)) := by
  have hnone := lookupJob_buildWorker_none evs jid
  cases hlk : lookupJob (buildWorker evs) jid with
  | none =>
    have hnostart : ¬jobStarted evs jid := hnone.mp hlk
    have hcond : notFoundCond evs idt jid := Or.inl hnostart
    cases hadm : idt.isAdmin <;>
      simp_all [serverGetJobStatus, serverStopJob, serverStreamOutput, authorize,
        getJob, getJobOwner, notFoundCond, hlk]
  | some entry =>
    obtain ⟨j, o⟩ := entry
    have hstart : jobStarted evs jid := by
      by_contra hns
      rw [← hnone] at hns
      rw [hlk] at hns
      exact absurd hns (by simp)
    have howner : recordedOwner evs jid = some o := by
      simp [recordedOwner, getJobOwner, hlk]
    cases hadm : idt.isAdmin with
    | true =>
      have hcond : ¬notFoundCond evs idt jid := by
        unfold notFoundCond
        push_neg
        exact ⟨hstart, fun h => absurd hadm (by simp [h])⟩
      refine ⟨?_, ?_, ?_, ?_⟩ <;>
        simp_all [serverGetJobStatus, serverStopJob, serverStreamOutput, authorize,
          getJob, getJobOwner, hlk]
      cases hres : (stop j env).result with
      | none => simp [hres]
      | some se => cases se <;> simp [hres]
    | false =>
      by_cases hu : o.username = idt.username
      · have hcond : ¬notFoundCond evs idt jid := by
          unfold notFoundCond
          push_neg
          refine ⟨hstart, fun _ => ?_⟩
          intro o' ho'
          rw [howner] at ho'
          cases ho'
          simpa using hu
        refine ⟨?_, ?_, ?_, ?_⟩ <;>
          simp_all [serverGetJobStatus, serverStopJob, serverStreamOutput, authorize,
            getJob, getJobOwner, hlk]
        cases hres : (stop j env).result with
        | none => simp [hres]
        | some se => cases se <;> simp [hres]
      · have hcond : notFoundCond evs idt jid :=
          Or.inr ⟨hadm, o, howner, hu⟩
        refine ⟨?_, ?_, ?_, ?_⟩ <;>
          simp_all [serverGetJobStatus, serverStopJob, serverStreamOutput, authorize,
            getJob, getJobOwner, hlk]

/-- C5 witness: alice owns a started job; bob (non-admin) gets NotFound on it,
an admin does not. -/
theorem adapter_notfound_iff_witness :
    (serverGetJobStatus
        (buildWorker [⟨"job-1", ⟨"alice", "client"⟩, runningJob false, true⟩])
        ⟨"bob", "client"⟩ "job-1" = .error .notFound ↔
      notFoundCond [⟨"job-1", ⟨"alice", "client"⟩, runningJob false, true⟩]
        ⟨"bob", "client"⟩ "job-1") ∧
      ((⟨"root", "admin"⟩ : Identity).isAdmin = true) ∧
      (serverGetJobStatus
          (buildWorker [⟨"job-1", ⟨"alice", "client"⟩, runningJob false, true⟩])
          ⟨"root", "admin"⟩ "job-1" = .error .notFound ↔
        ¬jobStarted [⟨"job-1", ⟨"alice", "client"⟩, runningJob false, true⟩] "job-1") :=
  ⟨(adapter_notfound_iff [⟨"job-1", ⟨"alice", "client"⟩, runningJob false, true⟩]
      ⟨"bob", "client"⟩ "job-1" ⟨.ok, .ok⟩).1,
    by decide,
    (adapter_notfound_iff [⟨"job-1", ⟨"alice", "client"⟩, runningJob false, true⟩]
      ⟨"root", "admin"⟩ "job-1" ⟨.ok, .ok⟩).2.2.2 (by decide)⟩

end Teleworker
